import Mathlib

/-!
Verification of the dynago document value marshaling engine: the value
vocabulary, the wire codec, the document accessors and the parameter model,
embedded shallowly from the Go source (src/types.go and friends).
-/

namespace Dynago

/-- The closed value vocabulary of the library (spec §3, src/types.go:10-37):
native strings, `Number` (decimal text, src/types.go:18), `Binary`
(`[]byte`, modelled as a list of byte values), native bools, `nil` (the
Null marker), the three set kinds (src/types.go:10-14), heterogeneous
`List` (src/types.go:16) and nested `Document` (src/types.go:37, modelled
as an association list of fields). -/
inductive Value where
  | str (s : String)
  | number (n : String)
  | binary (b : List Nat)
  | bool (b : Bool)
  | null
  | stringSet (xs : List String)
  | numberSet (xs : List String)
  | binarySet (xs : List (List Nat))
  | list (xs : List Value)
  | doc (fs : List (String × Value))

/-- A Document is a map from field names to values; Go's
`map[string]interface{}` is modelled as an association list whose keys are
unique (Go maps cannot hold duplicate keys). -/
abbrev DocMap := List (String × Value)

/-- The tagged on-wire form (spec §4.2/§6): one discriminator with its
payload. Binary payloads travel as their byte values (the spec allows
"base64 or equivalent text encoding"; the text encoding layer is external
to this repository). -/
inductive WireNode where
  | S (s : String)
  | N (n : String)
  | B (b : List Nat)
  | BOOL (b : Bool)
  | NULL
  | SS (xs : List String)
  | NS (xs : List String)
  | BS (xs : List (List Nat))
  | L (xs : List WireNode)
  | M (fs : List (String × WireNode))

/-- Embedding of `isEmptyValue` (src/types.go:183-193). Go reflection kinds
map onto the vocabulary as: `str`, `number` have kind String (length test);
`binary`, the sets and `list` have kind Slice (length test); `doc` has kind
Map (length test); a `nil` interface has kind Invalid (empty); `bool` falls
through the switch and is never empty. -/
def isEmptyValue : Value → Bool
  | .str s => s.length == 0
  | .number n => n.length == 0
  | .binary b => b.isEmpty
  | .bool _ => false
  | .null => true
  | .stringSet xs => xs.isEmpty
  | .numberSet xs => xs.isEmpty
  | .binarySet xs => xs.isEmpty
  | .list xs => xs.isEmpty
  | .doc fs => fs.isEmpty

mutual

/-- Modelled from the spec: `wireEncode` is called from
`Document.MarshalJSON` (src/types.go:43) but its definition is not among
the source files; this follows spec §4.2 step 3: each non-empty value is
wrapped with its discriminator, set elements stay raw, list elements and
document fields are recursively encoded with empty ones skipped under the
same emptiness rule (`isEmptyValue`, which is in the source). -/
def wireEncode : Value → WireNode
  | .str s => .S s
  | .number n => .N n
  | .binary b => .B b
  | .bool b => .BOOL b
  | .null => .NULL
  | .stringSet xs => .SS xs
  | .numberSet xs => .NS xs
  | .binarySet xs => .BS xs
  | .list xs => .L (wireEncodeList xs)
  | .doc fs => .M (wireEncodeDoc fs)

/-- Modelled from the spec: recursive encoding of list elements, skipping
empty ones (spec §4.2 step 3, `L` case). -/
def wireEncodeList : List Value → List WireNode
  | [] => []
  | v :: vs =>
    if isEmptyValue v then wireEncodeList vs
    else wireEncode v :: wireEncodeList vs

/-- Modelled from the spec: recursive encoding of document fields, skipping
empty ones (spec §4.2 step 3, `M` case, and step 4 for the top level). -/
def wireEncodeDoc : List (String × Value) → List (String × WireNode)
  | [] => []
  | (k, v) :: fs =>
    if isEmptyValue v then wireEncodeDoc fs
    else (k, wireEncode v) :: wireEncodeDoc fs

end

mutual

/-- Modelled from the spec: `wireDecode` is called from
`Document.UnmarshalJSON` (src/types.go:61) but its definition is not among
the source files; this follows spec §4.3: dispatch on the discriminator,
store Number text verbatim, retype set payloads, recurse into lists and
documents. -/
def wireDecode : WireNode → Value
  | .S s => .str s
  | .N n => .number n
  | .B b => .binary b
  | .BOOL b => .bool b
  | .NULL => .null
  | .SS xs => .stringSet xs
  | .NS xs => .numberSet xs
  | .BS xs => .binarySet xs
  | .L xs => .list (wireDecodeList xs)
  | .M fs => .doc (wireDecodeDoc fs)

/-- Modelled from the spec: per-element decoding of a wire list. -/
def wireDecodeList : List WireNode → List Value
  | [] => []
  | n :: ns => wireDecode n :: wireDecodeList ns

/-- Modelled from the spec: per-field decoding of a wire document. -/
def wireDecodeDoc : List (String × WireNode) → List (String × Value)
  | [] => []
  | (k, n) :: fs => (k, wireDecode n) :: wireDecodeDoc fs

end

mutual

/-- A value is hereditarily non-empty when it is non-empty and every value
nested inside its lists and documents is hereditarily non-empty; such
values survive encoding intact because no nested element is elided. -/
def hNonEmpty : Value → Bool
  | .str s => !(s.length == 0)
  | .number n => !(n.length == 0)
  | .binary b => !b.isEmpty
  | .bool _ => true
  | .null => false
  | .stringSet xs => !xs.isEmpty
  | .numberSet xs => !xs.isEmpty
  | .binarySet xs => !xs.isEmpty
  | .list xs => !xs.isEmpty && hNonEmptyList xs
  | .doc fs => !fs.isEmpty && hNonEmptyDoc fs

/-- All values of a list are hereditarily non-empty. -/
def hNonEmptyList : List Value → Bool
  | [] => true
  | v :: vs => hNonEmpty v && hNonEmptyList vs

/-- All field values of a document are hereditarily non-empty. -/
def hNonEmptyDoc : List (String × Value) → Bool
  | [] => true
  | (_, v) :: fs => hNonEmpty v && hNonEmptyDoc fs

end

theorem hNonEmpty_not_empty (v : Value) (h : hNonEmpty v = true) :
    isEmptyValue v = false := by
  cases v with
  | str s => simpa [hNonEmpty, isEmptyValue] using h
  | number n => simpa [hNonEmpty, isEmptyValue] using h
  | binary b => simpa [hNonEmpty, isEmptyValue] using h
  | bool b => simp [isEmptyValue]
  | null => simp [hNonEmpty] at h
  | stringSet xs => simpa [hNonEmpty, isEmptyValue] using h
  | numberSet xs => simpa [hNonEmpty, isEmptyValue] using h
  | binarySet xs => simpa [hNonEmpty, isEmptyValue] using h
  | list xs =>
    simp only [hNonEmpty, Bool.and_eq_true, Bool.not_eq_true'] at h
    simpa [isEmptyValue] using h.1
  | doc fs =>
    simp only [hNonEmpty, Bool.and_eq_true, Bool.not_eq_true'] at h
    simpa [isEmptyValue] using h.1

mutual

theorem decode_encode (v : Value) (h : hNonEmpty v = true) :
    wireDecode (wireEncode v) = v := by
  cases v with
  | str s => rfl
  | number n => rfl
  | binary b => rfl
  | bool b => rfl
  | null => rfl
  | stringSet xs => rfl
  | numberSet xs => rfl
  | binarySet xs => rfl
  | list xs =>
    simp only [hNonEmpty, Bool.and_eq_true] at h
    simp [wireEncode, wireDecode, decode_encode_list xs h.2]
  | doc fs =>
    simp only [hNonEmpty, Bool.and_eq_true] at h
    simp [wireEncode, wireDecode, decode_encode_doc fs h.2]

theorem decode_encode_list (xs : List Value) (h : hNonEmptyList xs = true) :
    wireDecodeList (wireEncodeList xs) = xs := by
  cases xs with
  | nil => rfl
  | cons v vs =>
    simp only [hNonEmptyList, Bool.and_eq_true] at h
    simp [wireEncodeList, hNonEmpty_not_empty v h.1, wireDecodeList,
      decode_encode v h.1, decode_encode_list vs h.2]

theorem decode_encode_doc (fs : List (String × Value))
    (h : hNonEmptyDoc fs = true) :
    wireDecodeDoc (wireEncodeDoc fs) = fs := by
  cases fs with
  | nil => rfl
  | cons kv fs' =>
    obtain ⟨k, v⟩ := kv
    simp only [hNonEmptyDoc, Bool.and_eq_true] at h
    simp [wireEncodeDoc, hNonEmpty_not_empty v h.1, wireDecodeDoc,
      decode_encode v h.1, decode_encode_doc fs' h.2]

end

/-- Embedding of `Document.MarshalJSON` (src/types.go:39-47): the field map
handed to `json.Marshal` keeps exactly the fields whose value is not
`isEmptyValue`, each encoded by `wireEncode`; the byte serialization of that
map is external (`encoding/json`). This coincides with the recursive field
encoding `wireEncodeDoc`. -/
def marshalFields (d : DocMap) : List (String × WireNode) :=
  wireEncodeDoc d

/-- Embedding of the Go map assignment `dd[key] = v`
(src/types.go:61): replace the binding when the key exists, append
otherwise. -/
def docInsert (d : DocMap) (k : String) (v : Value) : DocMap :=
  if d.any (fun kv => kv.1 == k) then
    d.map (fun kv => if kv.1 == k then (k, v) else kv)
  else d ++ [(k, v)]

/-- Embedding of the decode loop of `Document.UnmarshalJSON`
(src/types.go:60-63): every raw field is decoded with `wireDecode` and
stored into the existing document. -/
def unmarshalMerge (d : DocMap) (raw : List (String × WireNode)) : DocMap :=
  raw.foldl (fun acc kv => docInsert acc kv.1 (wireDecode kv.2)) d

/-- Embedding of `Document.UnmarshalJSON` (src/types.go:49-64). The
external `json.Unmarshal` call is abstracted by its outcome `parsed`: an
error, or the raw field map. On error the error is returned and the
receiver (a possibly-nil `*Document`, hence `Option DocMap`) is untouched;
on success a nil document is initialized and the raw fields are merged in.
The result is the pair (receiver after the call, returned error). -/
def unmarshalJSON (d : Option DocMap) (parsed : Except String (List (String × WireNode))) :
    Option DocMap × Option String :=
  match parsed with
  | .error e => (d, some e)
  | .ok raw => (some (unmarshalMerge (d.getD []) raw), none)

/-- A Go runtime panic raised by an accessor: a failed interface type
assertion such as `d[key].(string)`, or the explicit `panic(err)` on a
timestamp parse error (src/types.go:111). -/
inductive GoPanic where
  | typeAssertion
  | timeParse
  deriving DecidableEq, Repr

/-- Embedding of the Go test `d[key] != nil` followed by use of the value:
an absent key and a stored nil interface (the Null marker) both read as
nil. -/
def lookupNonNil (d : DocMap) (k : String) : Option Value :=
  match List.lookup k d with
  | some .null => none
  | some v => some v
  | none => none

/-- Embedding of `Document.GetString` (src/types.go:67-73): the type
assertion `.(string)` panics unless the stored value is a native string;
an absent or nil value yields the empty string. -/
def getString (d : DocMap) (k : String) : Except GoPanic String :=
  match lookupNonNil d k with
  | some (.str s) => .ok s
  | some _ => .error .typeAssertion
  | none => .ok ""

/-- Embedding of `Document.GetNumber` (src/types.go:75-81): the type
assertion `.(Number)` panics unless the stored value is a `Number`; an
absent or nil value yields the empty Number (its decimal text). -/
def getNumber (d : DocMap) (k : String) : Except GoPanic String :=
  match lookupNonNil d k with
  | some (.number n) => .ok n
  | some _ => .error .typeAssertion
  | none => .ok ""

/-- Embedding of `Document.GetStringSet` (src/types.go:83-89): the type
assertion `.(StringSet)` panics unless the stored value is a `StringSet`;
an absent or nil value yields the empty set. -/
def getStringSet (d : DocMap) (k : String) : Except GoPanic (List String) :=
  match lookupNonNil d k with
  | some (.stringSet xs) => .ok xs
  | some _ => .error .typeAssertion
  | none => .ok []

/-- Embedding of `Document.GetList` (src/types.go:91-97): the type
assertion `.(List)` panics unless the stored value is a `List`; an absent
or nil value yields the empty list. -/
def getList (d : DocMap) (k : String) : Except GoPanic (List Value) :=
  match lookupNonNil d k with
  | some (.list xs) => .ok xs
  | some _ => .error .typeAssertion
  | none => .ok []

/-- Digit run to its decimal value, as `strconv` accumulates it. -/
def digitsToNat (cs : List Char) : Nat :=
  cs.foldl (fun a c => a * 10 + (c.toNat - 48)) 0

/-- Embedding of the syntactic success condition of `strconv.Atoi`
(the Go standard library, called by `Number.IntVal`, src/types.go:20-22):
an optional single sign followed by one or more decimal digits. -/
def atoiValid (s : String) : Bool :=
  match s.toList with
  | [] => false
  | c :: rest =>
    let ds := if c = '-' || c = '+' then rest else c :: rest
    !ds.isEmpty && ds.all Char.isDigit

/-- Embedding of the `int` result of `strconv.Atoi`: the parsed value on
success and 0 on a syntax error (Go returns 0 together with the error;
`GetBool` discards the error and keeps this result). -/
def atoiRes (s : String) : Int :=
  if atoiValid s then
    match s.toList with
    | '-' :: rest => -(digitsToNat rest : Int)
    | '+' :: rest => (digitsToNat rest : Int)
    | ds => (digitsToNat ds : Int)
  else 0

/-- Embedding of `Document.GetBool` (src/types.go:126-138): the type
assertion `.(Number)` panics on any non-Number value; otherwise the result
of `IntVal` is compared against 1 with its error discarded; an absent or
nil value yields false. -/
def getBool (d : DocMap) (k : String) : Except GoPanic Bool :=
  match lookupNonNil d k with
  | some (.number n) => if atoiRes n = 1 then .ok true else .ok false
  | some _ => .error .typeAssertion
  | none => .ok false

/-- A UTC calendar timestamp as produced by the time parse. -/
structure GoTime where
  year : Nat
  month : Nat
  day : Nat
  hour : Nat
  minute : Nat
  second : Nat
  deriving DecidableEq, Repr

/-- Modelled from the spec: the `iso8601compact` layout constant referenced
at src/types.go:109 and the standard library `time.ParseInLocation` are not
among the source files; per spec §4.4 the format is the compact ISO-8601
basic form in UTC, modelled as a recognizer for `YYYYMMDDTHHMMSSZ`
(16 characters, digit fields, literal `T` and `Z`). Any string not of that
shape — in particular the empty string — fails to parse. -/
def parseIso8601compact (s : String) : Option GoTime :=
  match s.toList with
  | [y1, y2, y3, y4, mo1, mo2, d1, d2, t, h1, h2, mi1, mi2, s1, s2, z] =>
    if t = 'T' && z = 'Z'
        && [y1, y2, y3, y4, mo1, mo2, d1, d2, h1, h2, mi1, mi2, s1, s2].all Char.isDigit then
      some ⟨digitsToNat [y1, y2, y3, y4], digitsToNat [mo1, mo2],
        digitsToNat [d1, d2], digitsToNat [h1, h2], digitsToNat [mi1, mi2],
        digitsToNat [s1, s2]⟩
    else none
  | _ => none

/-- Embedding of `Document.GetTime` (src/types.go:105-116): an absent or
nil value yields nil; otherwise the type assertion `.(string)` panics on a
non-string value, and a string that fails to parse in the compact ISO-8601
layout raises `panic(err)`. -/
def getTime (d : DocMap) (k : String) : Except GoPanic (Option GoTime) :=
  match lookupNonNil d k with
  | none => .ok none
  | some (.str s) =>
    match parseIso8601compact s with
    | some t => .ok (some t)
    | none => .error .timeParse
  | some _ => .error .typeAssertion

/-- Embedding of `Param` (src/types.go:153-156): a substitution key with
its value. -/
structure Param where
  key : String
  value : Value

/-- Embedding of `Param.AsParams` (src/types.go:159-161): a solo Param is
the one-element parameter list. -/
def Param.asParams (p : Param) : List Param :=
  [p]

/-- The dynamic kind of a value, as Go's type switch distinguishes them;
used to state which type assertions fail. -/
inductive VKind where
  | kstr
  | knumber
  | kbinary
  | kbool
  | knull
  | kstringSet
  | knumberSet
  | kbinarySet
  | klist
  | kdoc
  deriving DecidableEq, Repr

/-- The kind of a value. -/
def Value.kind : Value → VKind
  | .str _ => .kstr
  | .number _ => .knumber
  | .binary _ => .kbinary
  | .bool _ => .kbool
  | .null => .knull
  | .stringSet _ => .kstringSet
  | .numberSet _ => .knumberSet
  | .binarySet _ => .kbinarySet
  | .list _ => .klist
  | .doc _ => .kdoc

theorem lookup_cons_of_eq {β : Type} (k : String) (b : β) (es : List (String × β)) :
    ((k, b) :: es).lookup k = some b := by
  simp [List.lookup_cons]

theorem lookup_cons_of_ne {β : Type} {k a : String} (h : a ≠ k) (b : β)
    (es : List (String × β)) :
    ((k, b) :: es).lookup a = es.lookup a := by
  simp [List.lookup_cons, beq_false_of_ne h]

theorem lookup_wireEncodeDoc_of_not_mem (fs : List (String × Value)) (k : String)
    (hk : k ∉ fs.map Prod.fst) :
    List.lookup k (wireEncodeDoc fs) = none := by
  induction fs with
  | nil => rfl
  | cons kv rest ih =>
    obtain ⟨k1, v1⟩ := kv
    simp only [List.map_cons, List.mem_cons] at hk
    push_neg at hk
    by_cases he : isEmptyValue v1 = true
    · simpa [wireEncodeDoc, he] using ih hk.2
    · simp only [Bool.not_eq_true] at he
      rw [show wireEncodeDoc ((k1, v1) :: rest)
          = (k1, wireEncode v1) :: wireEncodeDoc rest by simp [wireEncodeDoc, he],
        lookup_cons_of_ne hk.1]
      exact ih hk.2

theorem lookup_map_replace_self (d : DocMap) (k : String) (v : Value)
    (hmem : d.any (fun kv => kv.1 == k) = true) :
    List.lookup k (d.map (fun kv => if kv.1 == k then (k, v) else kv)) = some v := by
  induction d with
  | nil => simp at hmem
  | cons kv0 rest ih =>
    obtain ⟨k1, v1⟩ := kv0
    by_cases hk : k1 = k
    · subst hk
      simp only [List.map_cons, beq_self_eq_true, if_true]
      exact lookup_cons_of_eq _ _ _
    · have hmem' : rest.any (fun kv => kv.1 == k) = true := by
        simpa [hk] using hmem
      simp only [List.map_cons, beq_false_of_ne hk, Bool.false_eq_true, if_false]
      rw [lookup_cons_of_ne (Ne.symm hk)]
      exact ih hmem'

theorem lookup_map_replace_ne (d : DocMap) (k k' : String) (v : Value)
    (h : k ≠ k') :
    List.lookup k (d.map (fun kv => if kv.1 == k' then (k', v) else kv)) =
      List.lookup k d := by
  induction d with
  | nil => rfl
  | cons kv0 rest ih =>
    obtain ⟨k1, v1⟩ := kv0
    by_cases hk : k1 = k'
    · subst hk
      simp only [List.map_cons, beq_self_eq_true, if_true]
      rw [lookup_cons_of_ne h, lookup_cons_of_ne h]
      exact ih
    · simp only [List.map_cons, beq_false_of_ne hk, Bool.false_eq_true, if_false]
      by_cases hkk : k = k1
      · subst hkk
        rw [lookup_cons_of_eq, lookup_cons_of_eq]
      · rw [lookup_cons_of_ne hkk, lookup_cons_of_ne hkk]
        exact ih

theorem lookup_append_single_self (d : DocMap) (k : String) (v : Value)
    (hmem : d.any (fun kv => kv.1 == k) = false) :
    List.lookup k (d ++ [(k, v)]) = some v := by
  induction d with
  | nil => exact lookup_cons_of_eq k v []
  | cons kv0 rest ih =>
    obtain ⟨k1, v1⟩ := kv0
    rw [List.any_cons] at hmem
    have hk : ¬k1 = k := by
      intro hkk
      simp [hkk] at hmem
    have hmem' : rest.any (fun kv => kv.1 == k) = false := by
      simpa [hk] using hmem
    rw [List.cons_append, lookup_cons_of_ne (Ne.symm hk)]
    exact ih hmem'

theorem lookup_append_single_ne (d : DocMap) (k k' : String) (v : Value)
    (h : k ≠ k') :
    List.lookup k (d ++ [(k', v)]) = List.lookup k d := by
  induction d with
  | nil => exact lookup_cons_of_ne h v []
  | cons kv0 rest ih =>
    obtain ⟨k1, v1⟩ := kv0
    by_cases hkk : k = k1
    · subst hkk
      rw [List.cons_append, lookup_cons_of_eq, lookup_cons_of_eq]
    · rw [List.cons_append, lookup_cons_of_ne hkk, lookup_cons_of_ne hkk]
      exact ih

theorem lookup_docInsert_self (d : DocMap) (k : String) (v : Value) :
    List.lookup k (docInsert d k v) = some v := by
  unfold docInsert
  by_cases hmem : d.any (fun kv => kv.1 == k) = true
  · rw [if_pos hmem]
    exact lookup_map_replace_self d k v hmem
  · rw [if_neg hmem]
    rw [Bool.not_eq_true] at hmem
    exact lookup_append_single_self d k v hmem

theorem lookup_docInsert_ne (d : DocMap) (k k' : String) (v : Value)
    (h : k ≠ k') :
    List.lookup k (docInsert d k' v) = List.lookup k d := by
  unfold docInsert
  by_cases hmem : d.any (fun kv => kv.1 == k') = true
  · rw [if_pos hmem]
    exact lookup_map_replace_ne d k k' v h
  · rw [if_neg hmem]
    exact lookup_append_single_ne d k k' v h

theorem unmarshalMerge_lookup_of_not_mem (raw : List (String × WireNode))
    (dOld : DocMap) (k : String) (h : k ∉ raw.map Prod.fst) :
    List.lookup k (unmarshalMerge dOld raw) = List.lookup k dOld := by
  induction raw generalizing dOld with
  | nil => rfl
  | cons kn rest ih =>
    obtain ⟨k1, n1⟩ := kn
    simp only [List.map_cons, List.mem_cons] at h
    push_neg at h
    calc List.lookup k (unmarshalMerge (docInsert dOld k1 (wireDecode n1)) rest)
        = List.lookup k (docInsert dOld k1 (wireDecode n1)) := ih _ h.2
      _ = List.lookup k dOld := lookup_docInsert_ne _ _ _ _ h.1

theorem unmarshalMerge_lookup_of_mem (raw : List (String × WireNode))
    (dOld : DocMap) (k : String) (n : WireNode)
    (hnd : (raw.map Prod.fst).Nodup) (h : List.lookup k raw = some n) :
    List.lookup k (unmarshalMerge dOld raw) = some (wireDecode n) := by
  induction raw generalizing dOld with
  | nil => cases h
  | cons kn rest ih =>
    obtain ⟨k1, n1⟩ := kn
    simp only [List.map_cons, List.nodup_cons] at hnd
    by_cases hk : k = k1
    · subst hk
      rw [lookup_cons_of_eq] at h
      cases h
      calc List.lookup k (unmarshalMerge (docInsert dOld k (wireDecode n)) rest)
          = List.lookup k (docInsert dOld k (wireDecode n)) :=
            unmarshalMerge_lookup_of_not_mem _ _ _ hnd.1
        _ = some (wireDecode n) := lookup_docInsert_self _ _ _
    · rw [lookup_cons_of_ne hk] at h
      exact ih _ hnd.2 h

theorem lookupNonNil_eq_some (d : DocMap) (k : String) (v : Value)
    (h : List.lookup k d = some v) (hv : v ≠ Value.null) :
    lookupNonNil d k = some v := by
  unfold lookupNonNil
  rw [h]
  cases v <;> first | rfl | exact absurd rfl hv

theorem lookupNonNil_eq_none (d : DocMap) (k : String)
    (h : List.lookup k d = none) :
    lookupNonNil d k = none := by
  unfold lookupNonNil
  rw [h]

theorem getBool_of_number (d : DocMap) (k n : String)
    (h : List.lookup k d = some (Value.number n)) :
    getBool d k = if atoiRes n = 1 then Except.ok true else Except.ok false := by
  have hl : lookupNonNil d k = some (Value.number n) :=
    lookupNonNil_eq_some d k _ h (fun hh => Value.noConfusion hh)
  simp [getBool, hl]

/-- Claim C1, counterexample: the claim quantifies over every non-empty
Value, but a non-empty List holding an empty element does not round-trip:
the empty element is elided during encoding, so decode returns a shorter
list. -/
theorem roundtrip_fails_on_nested_empty :
    isEmptyValue (Value.list [Value.str ""]) = false ∧
    wireDecode (wireEncode (Value.list [Value.str ""])) ≠ Value.list [Value.str ""] := by
  constructor
  · rfl
  · intro h
    rw [show wireDecode (wireEncode (Value.list [Value.str ""])) = Value.list []
      from rfl] at h
    simp at h

/-- Claim C1, amended: for every hereditarily non-empty Value v (v is
non-empty and every value nested inside its lists and documents is
hereditarily non-empty), decoding the encoding of v yields a Value
structurally equal to v; moreover the encoder transports Number text
verbatim, character for character, for every Number. -/
theorem roundtrip_hereditarily_nonEmpty :
    (∀ v : Value, hNonEmpty v = true → wireDecode (wireEncode v) = v) ∧
    (∀ n : String, wireEncode (Value.number n) = WireNode.N n) :=
  ⟨decode_encode, fun _ => rfl⟩

/-- Claim C1, witness: the round-trip theorem applied to a concrete nested
document with a decimal Number, a list, and a string set. -/
theorem roundtrip_hereditarily_nonEmpty_witness :
    wireDecode (wireEncode (Value.doc [("score", Value.number "42.10"),
      ("tags", Value.list [Value.str "x", Value.stringSet ["a", "b"]])])) =
      Value.doc [("score", Value.number "42.10"),
        ("tags", Value.list [Value.str "x", Value.stringSet ["a", "b"]])] :=
  roundtrip_hereditarily_nonEmpty.1 _ (by decide)

/-- Claim C2, counterexample: the claim says the Bool value false, being
the zero value of its kind, is omitted from the encoded output; but
`isEmptyValue` (src/types.go:183-193) has no Bool case, so a false field
is kept and encoded. -/
theorem marshal_keeps_false_bool :
    List.lookup "f" (marshalFields [("f", Value.bool false)]) =
      some (WireNode.BOOL false) := rfl

/-- Claim C2, amended: encoding a Document omits a field exactly when its
value is empty per `isEmptyValue`, that is, when it is nil or a
zero-length string/sequence/set/map; a Bool field is never omitted, false
included. -/
theorem marshalFields_lookup_omits_iff_empty (d : DocMap) (k : String) (v : Value)
    (hnd : (d.map Prod.fst).Nodup) (h : List.lookup k d = some v) :
    List.lookup k (marshalFields d) =
      if isEmptyValue v then none else some (wireEncode v) := by
  induction d with
  | nil => cases h
  | cons kv0 rest ih =>
    obtain ⟨k1, v1⟩ := kv0
    simp only [List.map_cons, List.nodup_cons] at hnd
    by_cases hk : k = k1
    · subst hk
      rw [lookup_cons_of_eq] at h
      cases h
      by_cases he : isEmptyValue v = true
      · have hm : marshalFields ((k, v) :: rest) = wireEncodeDoc rest := by
          simp [marshalFields, wireEncodeDoc, he]
        rw [hm, lookup_wireEncodeDoc_of_not_mem rest k hnd.1]
        simp [he]
      · simp only [Bool.not_eq_true] at he
        have hm : marshalFields ((k, v) :: rest) =
            (k, wireEncode v) :: wireEncodeDoc rest := by
          simp [marshalFields, wireEncodeDoc, he]
        rw [hm, lookup_cons_of_eq]
        simp [he]
    · rw [lookup_cons_of_ne hk] at h
      have hrest := ih hnd.2 h
      by_cases he : isEmptyValue v1 = true
      · have hm : marshalFields ((k1, v1) :: rest) = marshalFields rest := by
          simp [marshalFields, wireEncodeDoc, he]
        rw [hm]
        exact hrest
      · simp only [Bool.not_eq_true] at he
        have hm : marshalFields ((k1, v1) :: rest) =
            (k1, wireEncode v1) :: marshalFields rest := by
          simp [marshalFields, wireEncodeDoc, he]
        rw [hm, lookup_cons_of_ne hk]
        exact hrest

/-- Claim C2, witness: the amended theorem applied to the spec §8 example
document, whose empty string set is omitted. -/
theorem marshalFields_lookup_omits_iff_empty_witness :
    List.lookup "tags" (marshalFields
      [("name", Value.str "abc"), ("tags", Value.stringSet [])]) =
      if isEmptyValue (Value.stringSet []) then none
      else some (wireEncode (Value.stringSet [])) :=
  marshalFields_lookup_omits_iff_empty _ "tags" _ (by decide) rfl

/-- Claim C3: top-level Document decode merges. Keys absent from the
incoming field map keep their previous value, keys of the incoming map end
up mapped to the decoded incoming node, and a nil Document is initialized
before the merge. -/
theorem unmarshal_merges :
    (∀ (dOld : DocMap) (raw : List (String × WireNode)) (k : String),
        k ∉ raw.map Prod.fst →
        List.lookup k (unmarshalMerge dOld raw) = List.lookup k dOld) ∧
    (∀ (dOld : DocMap) (raw : List (String × WireNode)) (k : String) (n : WireNode),
        (raw.map Prod.fst).Nodup → List.lookup k raw = some n →
        List.lookup k (unmarshalMerge dOld raw) = some (wireDecode n)) ∧
    (∀ raw, unmarshalJSON none (Except.ok raw) =
        (some (unmarshalMerge [] raw), none)) :=
  ⟨fun dOld raw k h => unmarshalMerge_lookup_of_not_mem raw dOld k h,
   fun dOld raw k n hnd h => unmarshalMerge_lookup_of_mem raw dOld k n hnd h,
   fun _ => rfl⟩

/-- Claim C3, witness: merging the wire field b into a document already
holding a keeps a and decodes b, the spec §8 merging example. -/
theorem unmarshal_merges_witness :
    List.lookup "a" (unmarshalMerge [("a", Value.str "x")] [("b", WireNode.S "y")]) =
      List.lookup "a" [("a", Value.str "x")] ∧
    List.lookup "b" (unmarshalMerge [("a", Value.str "x")] [("b", WireNode.S "y")]) =
      some (wireDecode (WireNode.S "y")) :=
  ⟨unmarshal_merges.1 [("a", Value.str "x")] [("b", WireNode.S "y")] "a" (by decide),
   unmarshal_merges.2.1 [("a", Value.str "x")] [("b", WireNode.S "y")] "b" _
     (by decide) rfl⟩

/-- Claim C4: evaluation of `GetTime` (src/types.go:105-116). An absent key
yields nil; a well-formed compact timestamp parses; a malformed non-empty
string panics as the claim states; but the empty string ALSO panics —
`val != nil` passes for a stored empty string and the parse of the empty
string fails — contradicting the claim and the function's own doc comment
(src/types.go:99-104), which promises nil for an empty string. -/
theorem getTime_empty_string_panics :
    getTime [] "t" = Except.ok none ∧
    getTime [("t", Value.str "")] "t" = Except.error GoPanic.timeParse ∧
    getTime [("t", Value.str "20200101T120000Z")] "t" =
      Except.ok (some ⟨2020, 1, 1, 12, 0, 0⟩) ∧
    getTime [("t", Value.str "not-a-timestamp!")] "t" =
      Except.error GoPanic.timeParse := by
  exact ⟨rfl, rfl, rfl, rfl⟩

/-- Claim C5: a typed accessor applied to a present, non-nil value of the
wrong dynamic kind fails with a type-assertion panic; it never coerces and
never returns the accessor's zero default. -/
theorem accessors_panic_on_wrong_kind :
    ∀ (d : DocMap) (k : String) (v : Value),
      List.lookup k d = some v → v ≠ Value.null →
      (v.kind ≠ VKind.kstr → getString d k = Except.error GoPanic.typeAssertion) ∧
      (v.kind ≠ VKind.knumber → getNumber d k = Except.error GoPanic.typeAssertion) ∧
      (v.kind ≠ VKind.kstringSet →
        getStringSet d k = Except.error GoPanic.typeAssertion) := by
  intro d k v h hv
  have hl := lookupNonNil_eq_some d k v h hv
  refine ⟨fun hk => ?_, fun hk => ?_, fun hk => ?_⟩ <;>
    cases v <;> simp_all [getString, getNumber, getStringSet, Value.kind]

/-- Claim C5, witness: GetString on a Number, GetNumber on a string and
GetStringSet on a List all panic. -/
theorem accessors_panic_on_wrong_kind_witness :
    getString [("k", Value.number "5")] "k" = Except.error GoPanic.typeAssertion ∧
    getNumber [("k", Value.str "x")] "k" = Except.error GoPanic.typeAssertion ∧
    getStringSet [("k", Value.list [Value.str "x"])] "k" =
      Except.error GoPanic.typeAssertion :=
  ⟨(accessors_panic_on_wrong_kind [("k", Value.number "5")] "k" _ rfl
      (fun hh => Value.noConfusion hh)).1 (by decide),
   (accessors_panic_on_wrong_kind [("k", Value.str "x")] "k" _ rfl
      (fun hh => Value.noConfusion hh)).2.1 (by decide),
   (accessors_panic_on_wrong_kind [("k", Value.list [Value.str "x"])] "k" _ rfl
      (fun hh => Value.noConfusion hh)).2.2 (by decide)⟩

/-- Claim C6: when a key is absent or mapped to nil, the typed accessors
return their zero/empty defaults without error. -/
theorem accessors_default_on_absent :
    ∀ (d : DocMap) (k : String), lookupNonNil d k = none →
      getString d k = Except.ok "" ∧
      getNumber d k = Except.ok "" ∧
      getStringSet d k = Except.ok [] ∧
      getList d k = Except.ok [] ∧
      getBool d k = Except.ok false := by
  intro d k h
  refine ⟨?_, ?_, ?_, ?_, ?_⟩ <;>
    simp [getString, getNumber, getStringSet, getList, getBool, h]

/-- Claim C6, witness: the defaults on a document whose only binding for
the key is nil. -/
theorem accessors_default_on_absent_witness :
    getString [("k", Value.null)] "k" = Except.ok "" ∧
    getNumber [("k", Value.null)] "k" = Except.ok "" ∧
    getStringSet [("k", Value.null)] "k" = Except.ok [] ∧
    getList [("k", Value.null)] "k" = Except.ok [] ∧
    getBool [("k", Value.null)] "k" = Except.ok false :=
  accessors_default_on_absent [("k", Value.null)] "k" rfl

/-- Claim C7: GetBool implements the legacy Number encoding of booleans:
Number 1 reads as true, Number 0 reads as false, and an absent key reads
as false. -/
theorem getBool_legacy_number_encoding :
    ∀ (d : DocMap) (k : String),
      (List.lookup k d = some (Value.number "1") → getBool d k = Except.ok true) ∧
      (List.lookup k d = some (Value.number "0") → getBool d k = Except.ok false) ∧
      (List.lookup k d = none → getBool d k = Except.ok false) := by
  intro d k
  refine ⟨fun h => ?_, fun h => ?_, fun h => ?_⟩
  · rw [getBool_of_number d k "1" h]
    rfl
  · rw [getBool_of_number d k "0" h]
    rfl
  · simp [getBool, lookupNonNil_eq_none d k h]

/-- Claim C7, witness: the three concrete cases of the spec §8 GetBool
example. -/
theorem getBool_legacy_number_encoding_witness :
    getBool [("flag", Value.number "1")] "flag" = Except.ok true ∧
    getBool [("flag", Value.number "0")] "flag" = Except.ok false ∧
    getBool [] "flag" = Except.ok false :=
  ⟨(getBool_legacy_number_encoding [("flag", Value.number "1")] "flag").1 rfl,
   (getBool_legacy_number_encoding [("flag", Value.number "0")] "flag").2.1 rfl,
   (getBool_legacy_number_encoding [] "flag").2.2 rfl⟩

/-- Claim C8: a solo Param reduces to the one-element parameter list made
of itself. -/
theorem param_asParams_singleton :
    ∀ (k : String) (v : Value), (Param.mk k v).asParams = [Param.mk k v] :=
  fun _ _ => rfl

/-- Claim C9: UnmarshalJSON is atomic on malformed input: when the
underlying JSON parse fails, the error is returned and the receiving
Document — nil included — is left exactly as it was. -/
theorem unmarshalJSON_error_is_atomic :
    ∀ (d : Option DocMap) (e : String),
      unmarshalJSON d (Except.error e) = (d, some e) :=
  fun _ _ => rfl

/-- Claim C10: GetBool swallows numeric parse failures: on a Number value
it never raises an error; a syntactically invalid Number reads as false
(Atoi returns 0 with a discarded error), and the result is true exactly
when the stored text parses to the integer 1. -/
theorem getBool_swallows_parse_errors :
    ∀ (d : DocMap) (k n : String), List.lookup k d = some (Value.number n) →
      (atoiValid n = false → getBool d k = Except.ok false) ∧
      getBool d k = Except.ok (decide (atoiRes n = 1)) := by
  intro d k n h
  constructor
  · intro hv
    have h0 : atoiRes n = 0 := by
      unfold atoiRes
      rw [hv]
      simp
    rw [getBool_of_number d k n h, h0]
    rfl
  · rw [getBool_of_number d k n h]
    by_cases hc : atoiRes n = 1
    · simp [hc]
    · simp [hc]

/-- Claim C10, witness: Number abc is unparseable and reads as false
without an error. -/
theorem getBool_swallows_parse_errors_witness :
    getBool [("flag", Value.number "abc")] "flag" = Except.ok false :=
  (getBool_swallows_parse_errors [("flag", Value.number "abc")] "flag" "abc"
    rfl).1 (by decide)

end Dynago
